import Mathlib

/-!
Verification of the AI Job Matcher core (src/main.py) against its
natural-language specification.

The matching engine is embedded shallowly: Python dictionaries become
structures with `Option` fields mirroring `dict.get` defaults, Python sets
of lowercased strings become `Finset String`, real arithmetic is carried
out in `ℚ`, and Python's `round(x, 1)` (round-half-to-even on decimal
digits) is `pyRound1`.  The request pipeline `analyze_resume` is modelled
as a pure function of the query results, the extracted skills and the
loaded corpus; the LLM report generator is an external collaborator and is
passed through opaquely.
-/

/-- A job record, mirroring the JSON dictionaries in `jobs_list`.
Fields are `Option`s because the code reads them with `dict.get` defaults
(`job.get("JobID", "N/A")`, `job.get("Skills", [])`, ...). -/
structure Job where
  JobID : Option String
  Title : Option String
  Location : Option String
  Responsibilities : Option (List String)
  Skills : Option (List String)
deriving DecidableEq

/-- The dictionary returned by `calculate_score`.  `missing_skills` is a
Python set (returned as a list in arbitrary order), modelled as a
`Finset`. -/
structure ScoreResult where
  total_score : ℚ
  semantic_score : ℚ
  skill_match : ℚ
  missing_skills : Finset String
deriving DecidableEq

/-- Python's `round` to an integer: round half to even (banker's
rounding), the documented behaviour of the built-in `round`. -/
def pyRoundInt (x : ℚ) : ℤ :=
  if x - ⌊x⌋ < 1/2 then ⌊x⌋
  else if 1/2 < x - ⌊x⌋ then ⌊x⌋ + 1
  else if 2 ∣ ⌊x⌋ then ⌊x⌋ else ⌊x⌋ + 1

/-- Python's `round(x, 1)`: round to one decimal digit. -/
def pyRound1 (x : ℚ) : ℚ := (pyRoundInt (x * 10) : ℚ) / 10

/-- Python's `str.lower()`, modelled as character-wise lowercasing. -/
def strLower (s : String) : String := ⟨s.data.map Char.toLower⟩

/-- Lowercase a list of skill strings and collect them into a set:
`set(s.lower() for s in skills)`. -/
def normSkills (skills : List String) : Finset String :=
  (skills.map strLower).toFinset

/-- The job's normalized skill set:
`set(s.lower() for s in job.get("Skills", []))`. -/
def jobSkills (job : Job) : Finset String :=
  normSkills (job.Skills.getD [])

/-- The skill-overlap ratio from `calculate_score`:
`len(my_skills & job_skills) / len(job_skills) if job_skills else 0`. -/
def skillScore (resume_skills : List String) (job : Job) : ℚ :=
  if jobSkills job = ∅ then 0
  else ((normSkills resume_skills ∩ jobSkills job).card : ℚ) / (jobSkills job).card

/-- `calculate_score` from src/main.py: weighted combination of the
semantic similarity, the skill overlap and a fixed `0.8 * 0.2` baseline,
each field converted to a percentage and rounded independently. -/
def calculate_score (resume_skills : List String) (job : Job)
    (semantic_score : ℚ) : ScoreResult :=
  let skill_score := skillScore resume_skills job
  let final := semantic_score * 0.5 + skill_score * 0.3 + 0.8 * 0.2
  { total_score := pyRound1 (final * 100)
    semantic_score := pyRound1 (semantic_score * 100)
    skill_match := pyRound1 (skill_score * 100)
    missing_skills := jobSkills job \ normSkills resume_skills }

/-- The distance-to-similarity conversion applied by `analyze_resume`
before scoring: `1 / (1 + float(dist))`. -/
def semantic_similarity (d : ℚ) : ℚ := 1 / (1 + d)

/-- A document's metadata as used by the pipeline: `doc.metadata` may or
may not carry an `"index"` key; `doc.metadata.get("index", -1)` reads it
with default `-1`. -/
structure DocMeta where
  index : Option ℤ
deriving DecidableEq

/-- `doc.metadata.get("index", -1)`. -/
def docIndex (doc : DocMeta) : ℤ := doc.index.getD (-1)

/-- One entry of the `matches` list built by `analyze_resume`. -/
structure MatchResult where
  job_id : String
  title : String
  location : String
  match_percentage : ℚ
  details : ScoreResult
deriving DecidableEq

/-- The match dictionary `analyze_resume` appends for one valid
`(doc, dist)` pair: score the job with similarity `1 / (1 + dist)` and
fill in the display fields with their `dict.get` defaults. -/
def mkMatch (skills : List String) (job : Job) (dist : ℚ) : MatchResult :=
  let scores := calculate_score skills job (semantic_similarity dist)
  { job_id := job.JobID.getD "N/A"
    title := job.Title.getD "Unknown"
    location := job.Location.getD "Remote/Not Specified"
    match_percentage := scores.total_score
    details := scores }

/-- The scoring loop of `analyze_resume` (step 4): for each `(doc, dist)`
pair, read the ordinal; if `0 <= idx < len(jobs_list)` build a match and
collect its missing skills, otherwise skip the pair silently.  Returns
the `matches` list (input order) and the accumulated `missing` set. -/
def scoreLoop (skills : List String) (jobs : List Job) :
    List (DocMeta × ℚ) → List MatchResult × Finset String
  | [] => ([], ∅)
  | (doc, dist) :: rest =>
    let r := scoreLoop skills jobs rest
    if h : 0 ≤ docIndex doc ∧ docIndex doc < (jobs.length : ℤ) then
      let m := mkMatch skills (jobs.get ⟨(docIndex doc).toNat, by omega⟩) dist
      (m :: r.1, m.details.missing_skills ∪ r.2)
    else r

/-- `matches.sort(key=lambda m: m["match_percentage"], reverse=True)`:
a stable sort, descending by match percentage (CPython's sort is stable
and `reverse=True` preserves the relative order of equal keys). -/
def sortMatches (ms : List MatchResult) : List MatchResult :=
  ms.mergeSort (fun a b => decide (b.match_percentage ≤ a.match_percentage))

/-- The response body of `/analyze`. -/
structure AnalyzeResult where
  top_jobs : List MatchResult
  career_report : String

/-- The pure core of `analyze_resume` (src/main.py, steps 3–5): the
vectorstore, when present, yields the `(doc, dist)` pairs of
`similarity_search_with_score`; when it is `None` the `docs` list is
empty.  Matches are built by `scoreLoop`, sorted descending by
`match_percentage`, and returned with the externally generated report. -/
def analyze_resume (vectorstore : Option (List (DocMeta × ℚ)))
    (skills : List String) (jobs : List Job) (career_report : String) :
    AnalyzeResult :=
  let docs := match vectorstore with
    | some vs => vs
    | none => []
  let r := scoreLoop skills jobs docs
  { top_jobs := sortMatches r.1, career_report := career_report }

/-- The FAISS index as far as the loader is concerned: the embedded texts
and their `{"index": i}` metadata. -/
structure VStore where
  texts : List String
  metas : List ℤ
deriving DecidableEq

/-- `_job_text`: the composite text representation of a job. -/
def _job_text (job : Job) : String :=
  job.Title.getD "" ++ ". " ++
    String.intercalate " " (job.Responsibilities.getD []) ++ ". Skills: " ++
    String.intercalate ", " (job.Skills.getD [])

/-- The process-wide state mutated by `build_vectorstore`. -/
structure SysState where
  vectorstore : Option VStore
  jobs_list : List Job
deriving DecidableEq

/-- Concrete job of Scenario A: skills `{"python", "sql"}`, no other
fields. -/
def jobA : Job := ⟨none, none, none, none, some ["python", "sql"]⟩

/-- A job dictionary with no keys at all (every `dict.get` falls back to
its default). -/
def defaultJob : Job := ⟨none, none, none, none, none⟩

/-- The validity test of the scoring loop:
`0 <= idx < len(jobs_list)`. -/
def validOrdinal (n : ℕ) (p : DocMeta × ℚ) : Bool :=
  decide (0 ≤ docIndex p.1 ∧ docIndex p.1 < (n : ℤ))

/-- The error taxonomy of the specification's loader contract. -/
inductive LoadError where
  | DataUnavailable
deriving DecidableEq

/-- `build_vectorstore` from src/main.py.  `dataset` is the content of
`job_dataset.json` when that file exists, `none` when it does not.  The
code begins with `if not os.path.exists(JOBS_FILE): return` — on a
missing file it returns normally, raising nothing and touching nothing.
Otherwise it keeps the first 100 jobs and builds the index over their
composite texts with ordinals as metadata.  The codomain is `Except` so
that "raises an error" is expressible; this path never produces one. -/
def build_vectorstore (dataset : Option (List Job)) (st : SysState) :
    Except LoadError SysState :=
  match dataset with
  | none => Except.ok st
  | some js =>
    let jobs := js.take 100
    Except.ok
      { vectorstore := some
          { texts := jobs.map _job_text
            metas := (List.range jobs.length).map Int.ofNat }
        jobs_list := jobs }

/-- The startup state: no index loaded, empty corpus. -/
def emptyState : SysState := ⟨none, []⟩

/-!  Helper lemmas about rounding and the skill score.  -/

theorem pyRoundInt_intCast (n : ℤ) : pyRoundInt (n : ℚ) = n := by
  unfold pyRoundInt
  rw [Int.floor_intCast, if_pos (by norm_num)]

theorem pyRoundInt_mono {x y : ℚ} (h : x ≤ y) : pyRoundInt x ≤ pyRoundInt y := by
  have hf : ⌊x⌋ ≤ ⌊y⌋ := Int.floor_mono h
  rcases eq_or_lt_of_le hf with he | hlt
  · unfold pyRoundInt
    rw [he]
    split_ifs <;> first | omega | (exfalso; linarith)
  · unfold pyRoundInt
    split_ifs <;> omega

theorem pyRound1_mono {x y : ℚ} (h : x ≤ y) : pyRound1 x ≤ pyRound1 y := by
  unfold pyRound1
  have h10 : x * 10 ≤ y * 10 := by linarith
  have hint := pyRoundInt_mono h10
  have hc : ((pyRoundInt (x * 10) : ℚ)) ≤ ((pyRoundInt (y * 10) : ℚ)) := by
    exact_mod_cast hint
  linarith

theorem pyRound1_intCast (n : ℤ) : pyRound1 (n : ℚ) = n := by
  unfold pyRound1
  have hcast : ((n : ℚ) * 10) = ((n * 10 : ℤ) : ℚ) := by push_cast; ring
  rw [hcast, pyRoundInt_intCast]
  push_cast
  ring

theorem pyRound1_zero : pyRound1 0 = 0 := by
  simpa using pyRound1_intCast 0

theorem pyRound1_hundred : pyRound1 100 = 100 := by
  simpa using pyRound1_intCast 100

theorem pyRound1_sixteen : pyRound1 16 = 16 := by
  simpa using pyRound1_intCast 16

theorem skillScore_nonneg (rs : List String) (job : Job) : 0 ≤ skillScore rs job := by
  unfold skillScore
  split_ifs
  · exact le_refl 0
  · positivity

theorem skillScore_le_one (rs : List String) (job : Job) : skillScore rs job ≤ 1 := by
  unfold skillScore
  split_ifs with h
  · norm_num
  · have hpos : 0 < (jobSkills job).card :=
      Finset.card_pos.mpr (Finset.nonempty_iff_ne_empty.mpr h)
    rw [div_le_one (by exact_mod_cast hpos)]
    exact_mod_cast Finset.card_le_card Finset.inter_subset_right

theorem pyRound1_range {x : ℚ} (h0 : 0 ≤ x) (h1 : x ≤ 100) :
    0 ≤ pyRound1 x ∧ pyRound1 x ≤ 100 := by
  constructor
  · have hm := pyRound1_mono h0
    rwa [pyRound1_zero] at hm
  · have hm := pyRound1_mono h1
    rwa [pyRound1_hundred] at hm

/-!  Claim theorems.  -/

/-- Claim C1: for every candidate skill list, job record, and semantic
similarity value `s`, `calculate_score` returns
`total_score = round((s*0.5 + skill_score*0.3 + 0.8*0.2)*100, 1)`,
`semantic_score = round(s*100, 1)` and `skill_match =
round(skill_score*100, 1)`, each rounded independently per field, with no
rounding of intermediate values. -/
theorem calculate_score_fields (rs : List String) (job : Job) (s : ℚ) :
    (calculate_score rs job s).total_score
        = pyRound1 ((s * 0.5 + skillScore rs job * 0.3 + 0.8 * 0.2) * 100) ∧
    (calculate_score rs job s).semantic_score = pyRound1 (s * 100) ∧
    (calculate_score rs job s).skill_match = pyRound1 (skillScore rs job * 100) :=
  ⟨rfl, rfl, rfl⟩

/-- Claim C2: after lowercasing both skill sets, the skill score is
`|job_skills ∩ candidate_skills| / |job_skills|` when the job lists at
least one skill and `0` when the job's skill set is empty; for job skills
`{"python","sql"}` and candidate skills `{"python"}` the skill score is
`0.5` and the missing skills are `{"sql"}`. -/
theorem skillScore_spec :
    (∀ (rs : List String) (job : Job), skillScore rs job =
        if jobSkills job = ∅ then 0
        else ((jobSkills job ∩ normSkills rs).card : ℚ) / (jobSkills job).card) ∧
    skillScore ["python"] jobA = 0.5 ∧
    (calculate_score ["python"] jobA 0).missing_skills = {"sql"} := by
  refine ⟨fun rs job => ?_, ?_, ?_⟩
  · unfold skillScore
    rw [Finset.inter_comm]
  · have h3 : ¬ jobSkills jobA = ∅ := by decide
    have h1 : (normSkills ["python"] ∩ jobSkills jobA).card = 1 := by decide
    have h2 : (jobSkills jobA).card = 2 := by decide
    unfold skillScore
    rw [if_neg h3, h1, h2]
    norm_num
  · show jobSkills jobA \ normSkills ["python"] = {"sql"}
    decide

/-- Claim C3: the similarity computed before scoring is `1 / (1 + d)`;
for every distance `d ≥ 0` it lies in `(0, 1]`, equals exactly `1` at
`d = 0`, and is strictly decreasing in the distance. -/
theorem semantic_similarity_spec :
    (∀ d : ℚ, 0 ≤ d → semantic_similarity d = 1 / (1 + d)
        ∧ 0 < semantic_similarity d ∧ semantic_similarity d ≤ 1) ∧
    semantic_similarity 0 = 1 ∧
    (∀ d1 d2 : ℚ, 0 ≤ d1 → d1 < d2 →
        semantic_similarity d2 < semantic_similarity d1) := by
  refine ⟨fun d hd => ⟨rfl, ?_, ?_⟩, by norm_num [semantic_similarity], ?_⟩
  · have hpos : (0:ℚ) < 1 + d := by linarith
    exact one_div_pos.mpr hpos
  · unfold semantic_similarity
    rw [div_le_one (by linarith)]
    linarith
  · intro d1 d2 h1 h12
    exact one_div_lt_one_div_of_lt (by linarith) (by linarith)

/-- Claim C3 witness: at concrete distances `2` and `3`, the similarity
is positive, at most one, and strictly smaller at the larger distance. -/
theorem semantic_similarity_spec_witness :
    (0 < semantic_similarity 2 ∧ semantic_similarity 2 ≤ 1) ∧
    semantic_similarity 3 < semantic_similarity 2 :=
  ⟨⟨(semantic_similarity_spec.1 2 (by norm_num)).2.1,
    (semantic_similarity_spec.1 2 (by norm_num)).2.2⟩,
   semantic_similarity_spec.2.2 2 3 (by norm_num) (by norm_num)⟩

/-- Claim C4: for any candidate skill list, job record and semantic
similarity value in `[0, 1]`, each percentage field returned by the
scorer lies between `0` and `100` inclusive. -/
theorem calculate_score_percentages_bounded (rs : List String) (job : Job)
    (s : ℚ) (h0 : 0 ≤ s) (h1 : s ≤ 1) :
    (0 ≤ (calculate_score rs job s).semantic_score ∧
        (calculate_score rs job s).semantic_score ≤ 100) ∧
    (0 ≤ (calculate_score rs job s).skill_match ∧
        (calculate_score rs job s).skill_match ≤ 100) ∧
    (0 ≤ (calculate_score rs job s).total_score ∧
        (calculate_score rs job s).total_score ≤ 100) := by
  have hk0 := skillScore_nonneg rs job
  have hk1 := skillScore_le_one rs job
  refine ⟨?_, ?_, ?_⟩
  · show 0 ≤ pyRound1 (s * 100) ∧ pyRound1 (s * 100) ≤ 100
    exact pyRound1_range (by linarith) (by linarith)
  · show 0 ≤ pyRound1 (skillScore rs job * 100) ∧
        pyRound1 (skillScore rs job * 100) ≤ 100
    exact pyRound1_range (by linarith) (by linarith)
  · show 0 ≤ pyRound1 ((s * 0.5 + skillScore rs job * 0.3 + 0.8 * 0.2) * 100) ∧
        pyRound1 ((s * 0.5 + skillScore rs job * 0.3 + 0.8 * 0.2) * 100) ≤ 100
    exact pyRound1_range (by nlinarith) (by nlinarith)

/-- Claim C4 witness: the bounds hold at the concrete input of no resume
skills, the Scenario A job, and similarity `0`. -/
theorem calculate_score_percentages_bounded_witness :
    (0 ≤ (calculate_score [] jobA 0).semantic_score ∧
        (calculate_score [] jobA 0).semantic_score ≤ 100) ∧
    (0 ≤ (calculate_score [] jobA 0).skill_match ∧
        (calculate_score [] jobA 0).skill_match ≤ 100) ∧
    (0 ≤ (calculate_score [] jobA 0).total_score ∧
        (calculate_score [] jobA 0).total_score ≤ 100) :=
  calculate_score_percentages_bounded [] jobA 0 le_rfl zero_le_one

/-- Claim C5: the missing skills returned by the scorer are a subset of
the job's (normalized) skill set and disjoint from the candidate's
normalized skill set. -/
theorem missing_skills_subset_disjoint (rs : List String) (job : Job) (s : ℚ) :
    (calculate_score rs job s).missing_skills ⊆ jobSkills job ∧
    Disjoint (calculate_score rs job s).missing_skills (normSkills rs) := by
  constructor
  · show jobSkills job \ normSkills rs ⊆ jobSkills job
    exact Finset.sdiff_subset
  · show Disjoint (jobSkills job \ normSkills rs) (normSkills rs)
    exact Finset.sdiff_disjoint

/-- Claim C10: for every candidate skill list, job record and
non-negative semantic similarity, the total score is at least `16`,
the floor contributed by the fixed `0.8 * 0.2` baseline term. -/
theorem total_score_floor (rs : List String) (job : Job) (s : ℚ)
    (hs : 0 ≤ s) : 16 ≤ (calculate_score rs job s).total_score := by
  have hk := skillScore_nonneg rs job
  show 16 ≤ pyRound1 ((s * 0.5 + skillScore rs job * 0.3 + 0.8 * 0.2) * 100)
  have h16 : (16:ℚ) ≤ (s * 0.5 + skillScore rs job * 0.3 + 0.8 * 0.2) * 100 := by
    nlinarith
  calc (16:ℚ) = pyRound1 16 := pyRound1_sixteen.symm
    _ ≤ _ := pyRound1_mono h16

/-- Claim C10 witness: the floor holds at the concrete input of no
resume skills, a job with no fields, and similarity `0`. -/
theorem total_score_floor_witness :
    16 ≤ (calculate_score [] defaultJob 0).total_score :=
  total_score_floor [] defaultJob 0 le_rfl

/-- Claim C6: the pipeline's sort returns the matches in descending order
of `match_percentage`, and matches with equal `match_percentage` keep
their relative input order (the sort is stable). -/
theorem sortMatches_sorted_stable (ms : List MatchResult) :
    (sortMatches ms).Sorted (fun a b => b.match_percentage ≤ a.match_percentage) ∧
    ∀ q : ℚ, (sortMatches ms).filter (fun m => decide (m.match_percentage = q))
        = ms.filter (fun m => decide (m.match_percentage = q)) := by
  have htrans : ∀ a b c : MatchResult,
      decide (b.match_percentage ≤ a.match_percentage) = true →
      decide (c.match_percentage ≤ b.match_percentage) = true →
      decide (c.match_percentage ≤ a.match_percentage) = true := by
    intro a b c hab hbc
    simp only [decide_eq_true_eq] at hab hbc ⊢
    linarith
  have htotal : ∀ a b : MatchResult,
      (decide (b.match_percentage ≤ a.match_percentage)
        || decide (a.match_percentage ≤ b.match_percentage)) = true := by
    intro a b
    simp only [Bool.or_eq_true, decide_eq_true_eq]
    exact le_total b.match_percentage a.match_percentage
  constructor
  · have hsorted := List.sorted_mergeSort htrans htotal ms
    exact hsorted.imp fun h => of_decide_eq_true h
  · intro q
    have hperm : ((sortMatches ms).filter
          (fun m => decide (m.match_percentage = q))).Perm
        (ms.filter (fun m => decide (m.match_percentage = q))) :=
      (List.mergeSort_perm ms _).filter _
    have hpair : (ms.filter (fun m => decide (m.match_percentage = q))).Pairwise
        (fun a b => decide (b.match_percentage ≤ a.match_percentage) = true) := by
      apply List.pairwise_of_forall_mem_list
      intro a ha b hb
      have ha' := (List.mem_filter.mp ha).2
      have hb' := (List.mem_filter.mp hb).2
      simp only [decide_eq_true_eq] at ha' hb' ⊢
      rw [ha', hb']
    have hsub : (ms.filter (fun m => decide (m.match_percentage = q))).Sublist
        (sortMatches ms) :=
      List.sublist_mergeSort htrans htotal hpair (List.filter_sublist ms)
    have hsub2 : (ms.filter (fun m => decide (m.match_percentage = q))).Sublist
        ((sortMatches ms).filter (fun m => decide (m.match_percentage = q))) := by
      have h2 := hsub.filter (fun m => decide (m.match_percentage = q))
      rw [List.filter_filter] at h2
      simpa [Bool.and_self] using h2
    exact (hsub2.eq_of_length hperm.length_eq.symm).symm

/-- The matches built by the scoring loop are exactly the valid-ordinal
query results, scored in input order. -/
theorem scoreLoop_matches (skills : List String) (jobs : List Job)
    (docs : List (DocMeta × ℚ)) :
    (scoreLoop skills jobs docs).1 =
      (docs.filter (validOrdinal jobs.length)).map
        (fun p => mkMatch skills (jobs.getD (docIndex p.1).toNat defaultJob) p.2) := by
  induction docs with
  | nil => rfl
  | cons hd tl ih =>
    obtain ⟨doc, dist⟩ := hd
    by_cases h : 0 ≤ docIndex doc ∧ docIndex doc < (jobs.length : ℤ)
    · have hv : validOrdinal jobs.length (doc, dist) = true := by
        simpa [validOrdinal] using h
      have hn : (docIndex doc).toNat < jobs.length := by omega
      have hget : jobs.getD (docIndex doc).toNat defaultJob
          = jobs.get ⟨(docIndex doc).toNat, hn⟩ := by
        rw [List.getD_eq_getElem?_getD, List.getElem?_eq_getElem hn]
        simp [List.get_eq_getElem]
      simp only [scoreLoop, dif_pos h, List.filter_cons, hv, if_pos,
        List.map_cons, List.cons.injEq, hget]
      exact ⟨trivial, ih⟩
    · have hv : validOrdinal jobs.length (doc, dist) = false := by
        simpa [validOrdinal] using h
      simp only [scoreLoop, dif_neg h, List.filter_cons, hv]
      simpa using ih

/-- Claim C7: the pipeline produces a match exactly for the query pairs
whose metadata ordinal lies in `[0, corpus size)`; pairs with an
out-of-range or absent ordinal are dropped silently, and the remaining
matches are still returned and ranked. -/
theorem analyze_matches_valid_ordinals (skills : List String)
    (jobs : List Job) (docs : List (DocMeta × ℚ)) (report : String) :
    (analyze_resume (some docs) skills jobs report).top_jobs =
      sortMatches ((docs.filter (validOrdinal jobs.length)).map
        (fun p => mkMatch skills (jobs.getD (docIndex p.1).toNat defaultJob) p.2)) := by
  show sortMatches (scoreLoop skills jobs docs).1 = _
  rw [scoreLoop_matches]

/-- Claim C8: when the vectorstore is unavailable (`None`), the query
step yields no documents and the analysis still completes with an empty
`top_jobs` list, no error being raised. -/
theorem analyze_no_vectorstore (skills : List String) (jobs : List Job)
    (report : String) :
    analyze_resume none skills jobs report =
      { top_jobs := [], career_report := report } := by
  simp only [analyze_resume, scoreLoop, sortMatches, List.mergeSort_nil]

/-- Claim C9 counterexample: with the dataset file absent, the loader
does not fail with `DataUnavailable` — it returns normally and leaves
the state untouched. -/
theorem build_vectorstore_missing_no_error :
    build_vectorstore none emptyState = Except.ok emptyState ∧
    build_vectorstore none emptyState ≠ Except.error LoadError.DataUnavailable :=
  ⟨rfl, fun h => by cases h⟩

/-- Claim C9 amended: if the job dataset path does not exist, the corpus
load returns without raising any error and without changing the state,
leaving the corpus empty — the condition the caller treats as "no corpus
yet". -/
theorem build_vectorstore_missing_file (st : SysState) :
    build_vectorstore none st = Except.ok st :=
  rfl
